import Mathlib

/-!
Verification of the multi-agent pricing decision engine of the
pricing-intelligence-poc repository.

The development shallowly embeds, over `ℚ`:
  * the context enrichment step (`src/agents/orchestrator.py`,
    `AgentOrchestrator._enrich_context`),
  * the Policy (Rules) Agent (`src/agents/rules_agent.py`),
  * the Elasticity Agent (`src/agents/elasticity_agent.py`),
  * the orchestrator's grid search, target/stretch selection, win-curve
    construction and price scoring (`src/agents/orchestrator.py`),
  * the error boundary of `src/api/model_service.py`.

The Win-Probability Agent is a trained random-forest classifier; its
prediction function is opaque data, so it is modelled as an abstract
function from the proposed price to the reported probability (the request
context is fixed along a single recommendation, and the candidate
contexts built by the orchestrator differ only in the price keys).

Python `float` arithmetic is modelled by exact rational arithmetic, and
Python's `round(x, n)` (round half to even at `n` decimal digits) by
`roundTo n`.  Reference-data CSV tables (products, customers, cogs,
policy) are external data; they are modelled as lookup functions
returning `Option` rows, with `none` both for a missing row and for a
missing table (an empty dataframe in the code behaves identically).
-/

/-- Round half to even of a rational to an integer, the tie-breaking rule
used by Python's builtin `round`. -/
def rhe (x : ℚ) : ℤ :=
  if x - Rat.floor x < 1/2 then Rat.floor x
  else if 1/2 < x - Rat.floor x then Rat.floor x + 1
  else if Rat.floor x % 2 = 0 then Rat.floor x else Rat.floor x + 1

/-- Python's `round(x, n)`: round half to even at `n` decimal digits. -/
def roundTo (n : ℕ) (x : ℚ) : ℚ := (rhe (x * 10 ^ n) : ℚ) / 10 ^ n

/-- Row of `products.csv` as used by the code: `product_id` and `family`. -/
structure ProductRow where
  product_id : String
  family : String

/-- Row of `customers.csv` as used by the code: `segment`, `industry`, `region`. -/
structure CustomerRow where
  segment : String
  industry : String
  region : String

/-- Row of `policy.csv` as used by `RulesAgent.execute`; `approval_bands`
is the already-parsed `bands` list of the `approval_bands_json` column
(on a parse failure the code substitutes the default band list, which is
the same as a lookup miss as far as the bands are concerned). -/
structure PolicyRow where
  min_margin_pct : ℚ
  ceiling_pct : ℚ
  approval_bands : List String

/-- Reference data loaded by the orchestrator and the rules agent
(`self.products_df`, `self.customers_df`, `self.cogs_df`,
`self.policy_df`), modelled as lookup functions.  A `none` result covers
both a missing row and an empty (unloadable) table. -/
structure Gateway where
  productLookup : String → Option ProductRow
  cogsLookup : String → Option ℚ
  customerLookup : String → Option CustomerRow
  policyLookup : String → String → Option PolicyRow

/-- Enriched pricing context (`AgentOrchestrator._enrich_context` output).
The six request keys are always present; `product_family`, `cogs`,
`customer_segment`, `region` and `competitor_price` are always present
after enrichment because of the `setdefault` calls, so they are plain
fields; `product_id` and `industry` are set only when the corresponding
lookup hits, and the price keys `current_price`, `target_price`,
`proposed_price` are absent after enrichment and only added later by
the orchestrator, so these are `Option` fields. -/
structure Ctx where
  sku : String
  customer_id : String
  quantity : ℚ
  country : String
  channel : String
  currency : String
  product_id : Option String := none
  product_family : String
  cogs : ℚ
  customer_segment : String
  industry : Option String := none
  region : String
  competitor_price : ℚ
  current_price : Option ℚ := none
  target_price : Option ℚ := none
  proposed_price : Option ℚ := none

/-- Embedding of `AgentOrchestrator._enrich_context`
(`src/agents/orchestrator.py`, lines 37-78): build the base context from
the six request fields, merge product data (and, when the product was
found, the cost row for its `product_id`), merge customer data, then
apply the `setdefault` fallbacks `product_family="Widgets"`, `cogs=80.0`,
`customer_segment="Enterprise"`, `region="EMEA"`,
`competitor_price = cogs * 1.3`.  A lookup miss never raises; it leaves
the field to be filled by its default. -/
def enrichContext (g : Gateway) (sku customer_id : String) (quantity : ℚ)
    (country channel currency : String) : Ctx :=
  let prod := g.productLookup sku
  let cust := g.customerLookup customer_id
  let cogs0 : Option ℚ :=
    match prod with
    | some p => g.cogsLookup p.product_id
    | none => none
  let cogs := cogs0.getD 80
  { sku := sku
    customer_id := customer_id
    quantity := quantity
    country := country
    channel := channel
    currency := currency
    product_id := prod.map (fun p => p.product_id)
    product_family := (prod.map (fun p => p.family)).getD "Widgets"
    cogs := cogs
    customer_segment := (cust.map (fun c => c.segment)).getD "Enterprise"
    industry := cust.map (fun c => c.industry)
    region := (cust.map (fun c => c.region)).getD "EMEA"
    competitor_price := cogs * (13/10)
    current_price := none
    target_price := none
    proposed_price := none }

/-- Default approval band list of `RulesAgent.execute`. -/
def defaultBands : List String := ["APPROVED", "REVIEW", "REJECT"]

/-- Result dictionary of `RulesAgent.execute` (the `reasons` strings are
presentation only and are omitted). -/
structure RulesResult where
  floor_price : ℚ
  ceiling_price : ℚ
  min_margin_pct : ℚ
  approval_bands : List String
  policy_source : String

/-- Embedding of `RulesAgent.execute` (`src/agents/rules_agent.py`,
lines 22-63): look up the policy row for `(region, product_family)`;
on a miss fall back to `min_margin_pct=0.10`, `ceiling_pct=2.0` and the
default bands; compute `floor_price = cogs * (1 + min_margin_pct)` and
`ceiling_price = cogs * ceiling_pct`, rounded to 2 decimals in the
returned dictionary.  The context always carries `cogs` after
enrichment, so the code's `context.get('cogs', 100.0)` is the `cogs`
field here. -/
def rulesExecute (policyLookup : String → String → Option PolicyRow) (ctx : Ctx) :
    RulesResult :=
  let cogs := ctx.cogs
  let mm : ℚ :=
    match policyLookup ctx.region ctx.product_family with
    | none => 1/10
    | some row => row.min_margin_pct
  let cp : ℚ :=
    match policyLookup ctx.region ctx.product_family with
    | none => 2
    | some row => row.ceiling_pct
  let bands : List String :=
    match policyLookup ctx.region ctx.product_family with
    | none => defaultBands
    | some row => row.approval_bands
  { floor_price := roundTo 2 (cogs * (1 + mm))
    ceiling_price := roundTo 2 (cogs * cp)
    min_margin_pct := mm
    approval_bands := bands
    policy_source := ctx.region ++ "-" ++ ctx.product_family }

/-- Embedding of `RulesAgent.get_approval_band`
(`src/agents/rules_agent.py`, lines 65-76): recompute the bounds for the
context, classify `margin_pct = (proposed_price - cogs) / cogs` (0 when
`cogs <= 0`): `APPROVED` when the margin meets the minimum and the price
is at most the ceiling, `REVIEW` when the margin meets the minimum but
the price exceeds the ceiling, `REJECT` otherwise. -/
def getApprovalBand (policyLookup : String → String → Option PolicyRow)
    (proposed_price cogs : ℚ) (ctx : Ctx) : String :=
  let r := rulesExecute policyLookup ctx
  let margin_pct : ℚ := if 0 < cogs then (proposed_price - cogs) / cogs else 0
  if r.min_margin_pct ≤ margin_pct then
    if proposed_price ≤ r.ceiling_price then "APPROVED" else "REVIEW"
  else "REJECT"

/-- Spec-side restatement of the approval classification, following the
spec's words: `REJECT` if `margin_pct < min_margin_pct`; else `APPROVED`
if `price <= ceiling_price`; else `REVIEW`. Used only to compare with
the code-side `getApprovalBand`. -/
def specApprovalBand (min_margin_pct ceiling_price proposed_price cogs : ℚ) : String :=
  if (proposed_price - cogs) / cogs < min_margin_pct then "REJECT"
  else if proposed_price ≤ ceiling_price then "APPROVED"
  else "REVIEW"

/-- Elasticity parameter table of `ElasticityAgent.__init__`
(`src/agents/elasticity_agent.py`, lines 11-16), keyed by
`(segment, region)`, with the fallback `base_elasticity=-1.5`,
`volume_adj=0.08` of `execute` for keys outside the table.  The decimal
literals are rendered exactly: `-1.2 = -6/5`, `0.1 = 1/10`,
`-1.1 = -11/10`, `0.12 = 3/25`, `-1.8 = -9/5`, `0.05 = 1/20`,
`-1.7 = -17/10`, `0.08 = 2/25`, `-1.5 = -3/2`. -/
def elasticityParams (segment region : String) : ℚ × ℚ :=
  if segment = "Enterprise" ∧ region = "EMEA" then (-6/5, 1/10)
  else if segment = "Enterprise" ∧ region = "Americas" then (-11/10, 3/25)
  else if segment = "SMB" ∧ region = "EMEA" then (-9/5, 1/20)
  else if segment = "SMB" ∧ region = "Americas" then (-17/10, 2/25)
  else (-3/2, 2/25)

/-- Current price resolution of `ElasticityAgent.execute`, line 22:
`context.get('current_price', context.get('target_price', 100))`. -/
def elastCurrentPrice (ctx : Ctx) : ℚ := ctx.current_price.getD (ctx.target_price.getD 100)

/-- Proposed price resolution of `ElasticityAgent.execute`, line 23:
`context.get('proposed_price', current_price)`. -/
def elastProposedPrice (ctx : Ctx) : ℚ := ctx.proposed_price.getD (elastCurrentPrice ctx)

/-- Volume factor of `ElasticityAgent.execute`, line 38:
`min(1.0, quantity / 20.0)`. -/
def volumeFactor (ctx : Ctx) : ℚ := min 1 (ctx.quantity / 20)

/-- Adjusted elasticity of `ElasticityAgent.execute`, line 39:
`base_elasticity * (1 - volume_factor * volume_adj)`. -/
def adjustedElasticity (ctx : Ctx) : ℚ :=
  (elasticityParams ctx.customer_segment ctx.region).1 *
    (1 - volumeFactor ctx * (elasticityParams ctx.customer_segment ctx.region).2)

/-- Price change of `ElasticityAgent.execute`, line 42:
`(proposed_price - current_price) / current_price if current_price > 0 else 0`. -/
def priceChangePct (ctx : Ctx) : ℚ :=
  if 0 < elastCurrentPrice ctx then
    (elastProposedPrice ctx - elastCurrentPrice ctx) / elastCurrentPrice ctx
  else 0

/-- Demand change of `ElasticityAgent.execute`, line 43:
`adjusted_elasticity * price_change_pct`. -/
def demandChangePct (ctx : Ctx) : ℚ := adjustedElasticity ctx * priceChangePct ctx

/-- New quantity estimate of `ElasticityAgent.execute`, lines 46-47:
`max(1, quantity * (1 + demand_change_pct))`. -/
def newQuantity (ctx : Ctx) : ℚ := max 1 (ctx.quantity * (1 + demandChangePct ctx))

/-- Revenue change of `ElasticityAgent.execute`, lines 50-52. -/
def revenueChangePct (ctx : Ctx) : ℚ :=
  let current_revenue := elastCurrentPrice ctx * ctx.quantity
  let new_revenue := elastProposedPrice ctx * newQuantity ctx
  if 0 < current_revenue then (new_revenue - current_revenue) / current_revenue else 0

/-- Suggested price of `ElasticityAgent.execute`, lines 56-61 (the
context always carries `cogs` after enrichment, so the code's
`context.get('cogs', current_price * 0.7)` is the `cogs` field here). -/
def suggestedPrice (ctx : Ctx) : ℚ :=
  if adjustedElasticity ctx < -1 then
    ctx.cogs / (1 - (-1 / (adjustedElasticity ctx + 1)))
  else elastCurrentPrice ctx

/-- Result dictionary of `ElasticityAgent.execute` (lines 63-75); the
numeric fields are rounded exactly as in the code, the `reasons` strings
are presentation only and are omitted. -/
structure ElasticityResult where
  price_elasticity : ℚ
  demand_change_pct : ℚ
  new_quantity_estimate : ℚ
  revenue_change_pct : ℚ
  suggested_price : ℚ
  elasticity_segment : String

/-- Embedding of `ElasticityAgent.execute`
(`src/agents/elasticity_agent.py`, lines 18-78), assembled from the
intermediate quantities above. -/
def elasticityExecute (ctx : Ctx) : ElasticityResult :=
  { price_elasticity := roundTo 2 (adjustedElasticity ctx)
    demand_change_pct := roundTo 3 (demandChangePct ctx)
    new_quantity_estimate := roundTo 1 (newQuantity ctx)
    revenue_change_pct := roundTo 3 (revenueChangePct ctx)
    suggested_price := roundTo 2 (suggestedPrice ctx)
    elasticity_segment := ctx.customer_segment ++ "-" ++ ctx.region }

/-- Grid point `k` of `np.linspace(fl, ce, n)`: `fl + (ce - fl) * k / (n - 1)`
(endpoints included, `n` equally spaced values). -/
def gridPoint (fl ce : ℚ) (n k : ℕ) : ℚ := fl + (ce - fl) * (k : ℚ) / ((n : ℚ) - 1)

/-- Embedding of `np.linspace(fl, ce, n)` as the list of its `n` grid points. -/
def priceGrid (fl ce : ℚ) (n : ℕ) : List ℚ := (List.range n).map (gridPoint fl ce n)

/-- Accumulator loop of Python's `max(iterable, key=f)`: the current
best is replaced only when a later element is strictly greater, so the
first element attaining the maximum is kept. -/
def pymaxGo (f : α → ℚ) (a : α) : List α → α
  | [] => a
  | x :: xs => pymaxGo f (if f a < f x then x else a) xs

/-- Python's `max(iterable, key=f)`: `none` on an empty list (where the
Python builtin would raise `ValueError`), otherwise the first element
with maximal key. -/
def pymax (f : α → ℚ) : List α → Option α
  | [] => none
  | x :: xs => some (pymaxGo f x xs)

/-- Per-candidate score dictionary built by `AgentOrchestrator.recommend_price`
(`src/agents/orchestrator.py`, lines 117-123). -/
structure Candidate where
  price : ℚ
  expected_margin : ℚ
  win_probability : ℚ
  margin : ℚ
  elasticity_score : ℚ

/-- Candidate context of the grid-search loop (lines 102-104): the
enriched context with `proposed_price` and `target_price` set to the
candidate price. -/
def candidateContext (ctx : Ctx) (p : ℚ) : Ctx :=
  { ctx with proposed_price := some p, target_price := some p }

/-- One iteration of the candidate evaluation loop (lines 101-123):
`margin = price - cogs`, `expected_margin = margin * win_probability`,
`elasticity_score = revenue_change_pct` of the elasticity agent at the
candidate context.  `winProb p` is the win probability reported by the
Win-Probability Agent at the candidate context (the candidate contexts
differ only in the price keys, so the agent's output is a function of
the candidate price once the enriched context is fixed). -/
def candidateScore (winProb : ℚ → ℚ) (ctx : Ctx) (p : ℚ) : Candidate :=
  { price := p
    expected_margin := (p - ctx.cogs) * winProb p
    win_probability := winProb p
    margin := p - ctx.cogs
    elasticity_score := (elasticityExecute (candidateContext ctx p)).revenue_change_pct }

/-- The 20-point candidate score list of `recommend_price` (lines 97-123). -/
def candidateScores (winProb : ℚ → ℚ) (ctx : Ctx) (fl ce : ℚ) : List Candidate :=
  (priceGrid fl ce 20).map (candidateScore winProb ctx)

/-- Target candidate selection (line 127):
`max(candidate_scores, key=lambda x: x['expected_margin'])`. -/
def targetCandidate (winProb : ℚ → ℚ) (ctx : Ctx) (fl ce : ℚ) : Option Candidate :=
  pymax (fun c => c.expected_margin) (candidateScores winProb ctx fl ce)

/-- Target price (line 128); the candidate list has 20 entries, so the
`none` branch is unreachable and its value `0` is arbitrary. -/
def targetPrice (winProb : ℚ → ℚ) (ctx : Ctx) (fl ce : ℚ) : ℚ :=
  match targetCandidate winProb ctx fl ce with
  | some c => c.price
  | none => 0

/-- Viable candidates for the stretch price (line 131):
`[c for c in candidate_scores if c['win_probability'] > 0.2]`. -/
def viableCandidates (winProb : ℚ → ℚ) (ctx : Ctx) (fl ce : ℚ) : List Candidate :=
  (candidateScores winProb ctx fl ce).filter (fun c => 1/5 < c.win_probability)

/-- Stretch price (line 132): price of
`max(viable_candidates, key=lambda x: x['price'])` when any candidate is
viable, else `ceiling_price`. -/
def stretchPrice (winProb : ℚ → ℚ) (ctx : Ctx) (fl ce : ℚ) : ℚ :=
  match pymax (fun c => c.price) (viableCandidates winProb ctx fl ce) with
  | some c => c.price
  | none => ce

/-- Final context of `recommend_price` (lines 135-141) as far as the
modelled agents read it: the enriched context with `target_price` and
`proposed_price` set to the chosen target (the dictionary also receives
`floor_price` and `stretch_price` keys, which none of the modelled
agents read). -/
def finalContext (ctx : Ctx) (tp : ℚ) : Ctx :=
  { ctx with target_price := some tp, proposed_price := some tp }

/-- Confidence factors of `AgentOrchestrator._calculate_confidence`
(lines 243-275); the membership test models the code's
`'APPROVED' in str(rules_result.get('approval_bands', []))` on a list of
band names. -/
def calculateConfidence (win_probability price_elasticity : ℚ)
    (approval_bands : List String) : String :=
  let f1 : ℚ := if 3/5 < win_probability then 1 else if 2/5 < win_probability then 7/10 else 3/10
  let f2 : ℚ := if |price_elasticity| < 2 then 9/10 else 1/2
  let f3 : ℚ := if "APPROVED" ∈ approval_bands then 1 else 3/5
  let avg := (f1 + f2 + f3) / 3
  if 4/5 < avg then "High" else if 3/5 < avg then "Medium" else "Low"

/-- Recommendation dictionary of `recommend_price` (lines 157-174); the
`reasons` and `agent_insights` entries are presentation strings and are
omitted. -/
structure Recommendation where
  floor : ℚ
  target : ℚ
  stretch : ℚ
  p_win_at_target : ℚ
  confidence_score : String

/-- Embedding of `AgentOrchestrator.recommend_price`
(`src/agents/orchestrator.py`, lines 80-177): enrich, compute policy
bounds, build the 20-point grid over the (rounded) bounds, score every
candidate, pick target and stretch, re-evaluate the agents at the
target, and round the three prices to 2 decimals in the result. -/
def recommendPrice (winProb : ℚ → ℚ) (g : Gateway) (sku customer_id : String)
    (quantity : ℚ) (country channel currency : String) : Recommendation :=
  let ctx := enrichContext g sku customer_id quantity country channel currency
  let r := rulesExecute g.policyLookup ctx
  let fl := r.floor_price
  let ce := r.ceiling_price
  let tp := targetPrice winProb ctx fl ce
  let sp := stretchPrice winProb ctx fl ce
  { floor := roundTo 2 fl
    target := roundTo 2 tp
    stretch := roundTo 2 sp
    p_win_at_target := winProb tp
    confidence_score :=
      calculateConfidence (winProb tp)
        (elasticityExecute (finalContext ctx tp)).price_elasticity r.approval_bands }

/-- Curve point dictionary of `WinRateAgent.get_win_curve`
(`src/agents/winrate_agent.py`, lines 209-212): the price rounded to 2
decimals and the win probability reported at that price. -/
structure CurvePoint where
  price : ℚ
  p_win : ℚ

/-- Embedding of `WinRateAgent.get_win_curve`
(`src/agents/winrate_agent.py`, lines 201-214): one independent
`execute` call per supplied price, in the supplied order. -/
def winCurve (predict : ℚ → ℚ) (price_range : List ℚ) : List CurvePoint :=
  price_range.map (fun p => { price := roundTo 2 p, p_win := predict p })

/-- Embedding of `AgentOrchestrator.get_win_curve`
(`src/agents/orchestrator.py`, lines 226-241): enrich, compute policy
bounds, build `np.linspace(floor_price, ceiling_price, 15)` and feed it
to the Win-Probability Agent's curve generator. -/
def orchGetWinCurve (predict : ℚ → ℚ) (g : Gateway) (sku customer_id : String)
    (quantity : ℚ) (country channel currency : String) : List CurvePoint :=
  let ctx := enrichContext g sku customer_id quantity country channel currency
  let r := rulesExecute g.policyLookup ctx
  winCurve predict (priceGrid r.floor_price r.ceiling_price 15)

/-- Context seen by the agents inside `AgentOrchestrator.score_price`
(`src/agents/orchestrator.py`, lines 179-190): the enriched context with
only `proposed_price` added. -/
def scoreContext (g : Gateway) (sku customer_id : String) (quantity : ℚ)
    (country channel currency : String) (proposed_price : ℚ) : Ctx :=
  { enrichContext g sku customer_id quantity country channel currency with
      proposed_price := some proposed_price }

/-- Score dictionary of `score_price` (lines 208-222); the `reasons` and
`agent_insights` entries are presentation strings and are omitted. -/
structure ScoreResult where
  p_win : ℚ
  expected_margin : ℚ
  approval_band : String

/-- Embedding of `AgentOrchestrator.score_price` (lines 179-224). -/
def scorePrice (winProb : ℚ → ℚ) (g : Gateway) (sku customer_id : String)
    (quantity : ℚ) (country channel currency : String) (proposed_price : ℚ) :
    ScoreResult :=
  let ctx := scoreContext g sku customer_id quantity country channel currency proposed_price
  { p_win := winProb proposed_price
    expected_margin := roundTo 2 ((proposed_price - ctx.cogs) * winProb proposed_price)
    approval_band := getApprovalBand g.policyLookup proposed_price ctx.cogs ctx }

/-- Structured error dictionary `{"error": str(e)}` returned by the
boundary of `src/api/model_service.py`. -/
structure RecommendError where
  error : String

/-- Outcome of the `recommend` boundary: either a complete
recommendation or the structured error form, never anything partial. -/
inductive RecommendResponse where
  | success : Recommendation → RecommendResponse
  | failure : RecommendError → RecommendResponse

/-- Embedding of `recommend` in `src/api/model_service.py` (lines 43-51):
the whole orchestrator call sits inside `try`, so a pipeline that throws
(modelled as `Except.error` with the exception message) is converted to
the `{"error": message}` dictionary, and a pipeline that returns is
passed through whole. -/
def modelServiceRecommend (pipeline : Except String Recommendation) : RecommendResponse :=
  match pipeline with
  | Except.ok r => RecommendResponse.success r
  | Except.error e => RecommendResponse.failure { error := e }

/-! Helper lemmas about `Rat.floor`, `rhe` and `roundTo`. -/

theorem rfloor_le (x : ℚ) : (Rat.floor x : ℚ) ≤ x := Rat.le_floor.mp le_rfl

theorem rfloor_eq (x : ℚ) (z : ℤ) (h1 : (z : ℚ) ≤ x) (h2 : x < z + 1) :
    Rat.floor x = z := by
  have ha : z ≤ Rat.floor x := Rat.le_floor.mpr h1
  have hb : Rat.floor x ≤ z := by
    by_contra h
    push_neg at h
    have h3 : ((z + 1 : ℤ) : ℚ) ≤ x := Rat.le_floor.mp (by omega)
    push_cast at h3
    linarith
  omega

theorem rhe_intCast (z : ℤ) : rhe (z : ℚ) = z := by
  unfold rhe
  rw [rfloor_eq (z : ℚ) z le_rfl (by norm_num)]
  norm_num

theorem rhe_ge_floor (x : ℚ) : Rat.floor x ≤ rhe x := by
  unfold rhe
  split_ifs <;> omega

theorem rhe_ge_int (x : ℚ) (z : ℤ) (h : (z : ℚ) ≤ x) : z ≤ rhe x :=
  le_trans (Rat.le_floor.mpr h) (rhe_ge_floor x)

theorem rhe_le_int (x : ℚ) (z : ℤ) (h : x ≤ (z : ℚ)) : rhe x ≤ z := by
  have hfl : (Rat.floor x : ℚ) ≤ x := rfloor_le x
  have hfz : Rat.floor x ≤ z := by exact_mod_cast hfl.trans h
  unfold rhe
  split_ifs with h1 h2 h3
  · exact hfz
  · have h4 : (Rat.floor x : ℚ) < (z : ℚ) := by linarith
    have h5 : Rat.floor x < z := by exact_mod_cast h4
    omega
  · exact hfz
  · have h4 : (Rat.floor x : ℚ) < (z : ℚ) := by linarith
    have h5 : Rat.floor x < z := by exact_mod_cast h4
    omega

theorem lt_rfloor_add_one (x : ℚ) : x < (Rat.floor x : ℚ) + 1 := by
  by_contra h
  push_neg at h
  have h2 : ((Rat.floor x + 1 : ℤ) : ℚ) ≤ x := by push_cast; linarith
  have h3 : Rat.floor x + 1 ≤ Rat.floor x := Rat.le_floor.mpr h2
  omega

theorem rhe_ge_sub_half (x : ℚ) : x - 1/2 ≤ (rhe x : ℚ) := by
  have hlt : x < (Rat.floor x : ℚ) + 1 := lt_rfloor_add_one x
  unfold rhe
  split_ifs with h1 h2 h3 <;> push_cast <;> linarith

theorem rhe_le_add_half (x : ℚ) : (rhe x : ℚ) ≤ x + 1/2 := by
  have hfl : (Rat.floor x : ℚ) ≤ x := rfloor_le x
  unfold rhe
  split_ifs with h1 h2 h3 <;> push_cast <;> linarith

theorem roundTo_eq_intCast (n : ℕ) (x : ℚ) (z : ℤ) (h : x * 10 ^ n = (z : ℚ)) :
    roundTo n x = (z : ℚ) / 10 ^ n := by
  rw [roundTo, h, rhe_intCast]

theorem roundTo2_ge (x : ℚ) (i : ℤ) (h : (i : ℚ) / 100 ≤ x) :
    (i : ℚ) / 100 ≤ roundTo 2 x := by
  have e : ((10:ℚ) ^ (2:ℕ)) = 100 := by norm_num
  rw [roundTo, e]
  have h1 : (i : ℚ) ≤ x * 100 := by
    have := (div_le_iff₀ (show (0:ℚ) < 100 by norm_num)).mp h
    linarith
  have h3 : (i : ℚ) ≤ (rhe (x * 100) : ℚ) := by exact_mod_cast rhe_ge_int _ _ h1
  exact (div_le_div_iff_of_pos_right (show (0:ℚ) < 100 by norm_num)).mpr h3

theorem roundTo2_le (x : ℚ) (i : ℤ) (h : x ≤ (i : ℚ) / 100) :
    roundTo 2 x ≤ (i : ℚ) / 100 := by
  have e : ((10:ℚ) ^ (2:ℕ)) = 100 := by norm_num
  rw [roundTo, e]
  have h1 : x * 100 ≤ (i : ℚ) := by
    have := (le_div_iff₀ (show (0:ℚ) < 100 by norm_num)).mp h
    linarith
  have h3 : (rhe (x * 100) : ℚ) ≤ (i : ℚ) := by exact_mod_cast rhe_le_int _ _ h1
  exact (div_le_div_iff_of_pos_right (show (0:ℚ) < 100 by norm_num)).mpr h3

theorem roundTo2_lt_of_gap (x y : ℚ) (h : x + 1/100 < y) :
    roundTo 2 x < roundTo 2 y := by
  have e : ((10:ℚ) ^ (2:ℕ)) = 100 := by norm_num
  rw [roundTo, roundTo, e]
  have h1 : (rhe (x * 100) : ℚ) ≤ x * 100 + 1/2 := rhe_le_add_half _
  have h2 : y * 100 - 1/2 ≤ (rhe (y * 100) : ℚ) := rhe_ge_sub_half _
  have h3 : (rhe (x * 100) : ℚ) < (rhe (y * 100) : ℚ) := by linarith
  exact (div_lt_div_iff_of_pos_right (show (0:ℚ) < 100 by norm_num)).mpr h3

/-! Helper lemmas about the price grid. -/

theorem priceGrid_length (fl ce : ℚ) (n : ℕ) : (priceGrid fl ce n).length = n := by
  simp [priceGrid]

theorem priceGrid_getElem (fl ce : ℚ) (n k : ℕ) (h : k < (priceGrid fl ce n).length) :
    (priceGrid fl ce n)[k] = gridPoint fl ce n k := by
  simp [priceGrid]

theorem priceGrid_mem (fl ce : ℚ) (n : ℕ) (p : ℚ) (h : p ∈ priceGrid fl ce n) :
    ∃ k, k < n ∧ p = gridPoint fl ce n k := by
  rw [priceGrid, List.mem_map] at h
  obtain ⟨k, hk, rfl⟩ := h
  exact ⟨k, List.mem_range.mp hk, rfl⟩

theorem gridPoint_zero (fl ce : ℚ) (n : ℕ) : gridPoint fl ce n 0 = fl := by
  simp [gridPoint]

theorem gridPoint_last (fl ce : ℚ) (n : ℕ) (hn : 2 ≤ n) :
    gridPoint fl ce n (n - 1) = ce := by
  have h1 : ((n - 1 : ℕ) : ℚ) = (n : ℚ) - 1 := by
    have : (1:ℕ) ≤ n := by omega
    push_cast [this]
    ring
  have h2 : (n : ℚ) - 1 ≠ 0 := by
    have : (2:ℚ) ≤ (n : ℚ) := by exact_mod_cast hn
    intro hc
    linarith
  rw [gridPoint, h1, mul_div_assoc, div_self h2]
  ring

theorem gridPoint_ge (fl ce : ℚ) (n k : ℕ) (hn : 2 ≤ n) (hle : fl ≤ ce) :
    fl ≤ gridPoint fl ce n k := by
  have hd : (0:ℚ) < (n : ℚ) - 1 := by
    have : (2:ℚ) ≤ (n : ℚ) := by exact_mod_cast hn
    linarith
  have h1 : (0:ℚ) ≤ (ce - fl) * (k : ℚ) := mul_nonneg (by linarith) (by positivity)
  have h2 := div_nonneg h1 hd.le
  rw [gridPoint]
  linarith

theorem gridPoint_le (fl ce : ℚ) (n k : ℕ) (hn : 2 ≤ n) (hk : k < n) (hle : fl ≤ ce) :
    gridPoint fl ce n k ≤ ce := by
  have hd : (0:ℚ) < (n : ℚ) - 1 := by
    have : (2:ℚ) ≤ (n : ℚ) := by exact_mod_cast hn
    linarith
  have hkq : (k : ℚ) ≤ (n : ℚ) - 1 := by
    have : (k : ℚ) + 1 ≤ (n : ℚ) := by exact_mod_cast hk
    linarith
  have h2 : (ce - fl) * (k : ℚ) / ((n : ℚ) - 1) ≤ ce - fl := by
    rw [div_le_iff₀ hd]
    exact mul_le_mul_of_nonneg_left hkq (by linarith)
  rw [gridPoint]
  linarith

theorem gridPoint20_mono (fl ce : ℚ) (j k : ℕ) (hjk : j ≤ k) (hle : fl ≤ ce) :
    gridPoint fl ce 20 j ≤ gridPoint fl ce 20 k := by
  have hj : (j : ℚ) ≤ (k : ℚ) := by exact_mod_cast hjk
  have h1 : (ce - fl) * (j : ℚ) ≤ (ce - fl) * (k : ℚ) :=
    mul_le_mul_of_nonneg_left hj (by linarith)
  rw [gridPoint, gridPoint]
  have h20 : ((20:ℕ) : ℚ) - 1 = 19 := by norm_num
  rw [h20]
  linarith

theorem gridPoint20_spacing (fl ce : ℚ) (k : ℕ) :
    gridPoint fl ce 20 (k + 1) - gridPoint fl ce 20 k = (ce - fl) / 19 := by
  rw [gridPoint, gridPoint]
  push_cast
  ring

theorem gridPoint15_gap (fl ce : ℚ) (j k : ℕ) (hjk : j < k) (hgap : 14/100 < ce - fl) :
    gridPoint fl ce 15 j + 1/100 < gridPoint fl ce 15 k := by
  have hj : (j : ℚ) + 1 ≤ (k : ℚ) := by exact_mod_cast hjk
  have h1 : (ce - fl) * ((j : ℚ) + 1) ≤ (ce - fl) * (k : ℚ) :=
    mul_le_mul_of_nonneg_left hj (by linarith)
  rw [gridPoint, gridPoint]
  have h15 : ((15:ℕ) : ℚ) - 1 = 14 := by norm_num
  rw [h15]
  linarith

/-! Helper lemmas characterising Python's `max(iterable, key=f)`. -/

theorem pymaxGo_max {α : Type} (f : α → ℚ) (a : α) (xs : List α) :
    f a ≤ f (pymaxGo f a xs) ∧ ∀ y ∈ xs, f y ≤ f (pymaxGo f a xs) := by
  induction xs generalizing a with
  | nil => exact ⟨le_rfl, by simp⟩
  | cons x xs ih =>
    have hab : f a ≤ f (if f a < f x then x else a) := by
      split_ifs with h
      · exact le_of_lt h
      · exact le_rfl
    have hxb : f x ≤ f (if f a < f x then x else a) := by
      split_ifs with h
      · exact le_rfl
      · exact le_of_not_lt h
    obtain ⟨h1, h2⟩ := ih (if f a < f x then x else a)
    refine ⟨hab.trans h1, ?_⟩
    intro y hy
    rcases List.mem_cons.mp hy with rfl | hy2
    · exact hxb.trans h1
    · exact h2 y hy2

theorem pymaxGo_first {α : Type} (f : α → ℚ) (a : α) (xs : List α) :
    pymaxGo f a xs = a ∨
      ∃ l1 l2, xs = l1 ++ pymaxGo f a xs :: l2 ∧ f a < f (pymaxGo f a xs) ∧
        ∀ y ∈ l1, f y < f (pymaxGo f a xs) := by
  induction xs generalizing a with
  | nil => exact Or.inl rfl
  | cons x xs ih =>
    by_cases hax : f a < f x
    · have hgo : pymaxGo f a (x :: xs) = pymaxGo f x xs := by
        simp [pymaxGo, hax]
      rcases ih x with h1 | ⟨l1, l2, heq, hlt, hall⟩
      · refine Or.inr ⟨[], xs, ?_, ?_, by simp⟩
        · rw [hgo, h1]
          simp
        · rw [hgo, h1]
          exact hax
      · refine Or.inr ⟨x :: l1, l2, ?_, ?_, ?_⟩
        · rw [hgo, List.cons_append, ← heq]
        · rw [hgo]
          exact hax.trans hlt
        · intro y hy
          rcases List.mem_cons.mp hy with rfl | hy2
          · rw [hgo]
            exact hlt
          · rw [hgo]
            exact hall y hy2
    · have hgo : pymaxGo f a (x :: xs) = pymaxGo f a xs := by
        simp [pymaxGo, hax]
      rcases ih a with h1 | ⟨l1, l2, heq, hlt, hall⟩
      · exact Or.inl (by rw [hgo, h1])
      · refine Or.inr ⟨x :: l1, l2, ?_, ?_, ?_⟩
        · rw [hgo, List.cons_append, ← heq]
        · rw [hgo]
          exact hlt
        · intro y hy
          rcases List.mem_cons.mp hy with rfl | hy2
          · rw [hgo]
            exact lt_of_le_of_lt (le_of_not_lt hax) hlt
          · rw [hgo]
            exact hall y hy2

theorem pymax_spec {α : Type} (f : α → ℚ) (l : List α) (c : α)
    (h : pymax f l = some c) :
    (∀ y ∈ l, f y ≤ f c) ∧ ∃ l1 l2, l = l1 ++ c :: l2 ∧ ∀ y ∈ l1, f y < f c := by
  cases l with
  | nil => simp [pymax] at h
  | cons x xs =>
    have hc : pymaxGo f x xs = c := by
      simpa [pymax] using h
    constructor
    · intro y hy
      obtain ⟨h1, h2⟩ := pymaxGo_max f x xs
      rcases List.mem_cons.mp hy with rfl | hy2
      · rw [← hc]
        exact h1
      · rw [← hc]
        exact h2 y hy2
    · rcases pymaxGo_first f x xs with h1 | ⟨l1, l2, heq, hlt, hall⟩
      · refine ⟨[], xs, ?_, by simp⟩
        rw [← hc, h1]
        simp
      · refine ⟨x :: l1, l2, ?_, ?_⟩
        · rw [← hc, List.cons_append, ← heq]
        · intro y hy
          rcases List.mem_cons.mp hy with rfl | hy2
          · rw [← hc]
            exact hlt
          · rw [← hc]
            exact hall y hy2

theorem pymax_isSome {α : Type} (f : α → ℚ) (l : List α) (h : l ≠ []) :
    ∃ c, pymax f l = some c := by
  cases l with
  | nil => exact absurd rfl h
  | cons x xs => exact ⟨pymaxGo f x xs, rfl⟩

theorem pymax_mem {α : Type} (f : α → ℚ) (l : List α) (c : α)
    (h : pymax f l = some c) : c ∈ l := by
  obtain ⟨l1, l2, heq, _⟩ := (pymax_spec f l c h).2
  rw [heq]
  exact List.mem_append.mpr (Or.inr (List.mem_cons_self c l2))

/-! Helper lemmas about the elasticity agent. -/

theorem elasticityParams_bounds (s r : String) :
    (elasticityParams s r).1 < 0 ∧ 0 < (elasticityParams s r).2 ∧
      (elasticityParams s r).2 ≤ 3/25 := by
  unfold elasticityParams
  split_ifs <;> norm_num

theorem adjustedElasticity_neg (ctx : Ctx) : adjustedElasticity ctx < 0 := by
  obtain ⟨hbase, hadj_pos, hadj_le⟩ :=
    elasticityParams_bounds ctx.customer_segment ctx.region
  have hvf : volumeFactor ctx ≤ 1 := min_le_left _ _
  have hpos : 0 < 1 - volumeFactor ctx * (elasticityParams ctx.customer_segment ctx.region).2 := by
    by_cases hv : 0 ≤ volumeFactor ctx
    · have h1 : volumeFactor ctx * (elasticityParams ctx.customer_segment ctx.region).2 ≤
          1 * (elasticityParams ctx.customer_segment ctx.region).2 :=
        mul_le_mul_of_nonneg_right hvf hadj_pos.le
      nlinarith
    · push_neg at hv
      nlinarith
  exact mul_neg_of_neg_of_pos hbase hpos

/-! Concrete reference inputs used by witnesses and counterexamples:
an empty gateway (every lookup misses, as when the sample CSV files are
absent and every dataframe is empty) and the enriched context of a
default request. -/

def emptyGateway : Gateway :=
  { productLookup := fun _ => none
    cogsLookup := fun _ => none
    customerLookup := fun _ => none
    policyLookup := fun _ _ => none }

def ctx0 : Ctx := enrichContext emptyGateway "SKU1" "C001" 10 "DE" "Direct" "EUR"

theorem ctx0_cogs : ctx0.cogs = 80 := rfl

theorem ctx0_region : ctx0.region = "EMEA" := rfl

theorem ctx0_family : ctx0.product_family = "Widgets" := rfl

theorem ctx0_segment : ctx0.customer_segment = "Enterprise" := rfl

theorem rules0_floor :
    (rulesExecute emptyGateway.policyLookup ctx0).floor_price = 88 := by
  have h : (rulesExecute emptyGateway.policyLookup ctx0).floor_price =
      roundTo 2 ((80:ℚ) * (1 + 1/10)) := rfl
  rw [h, roundTo_eq_intCast 2 _ 8800 (by norm_num)]
  norm_num

theorem rules0_ceiling :
    (rulesExecute emptyGateway.policyLookup ctx0).ceiling_price = 160 := by
  have h : (rulesExecute emptyGateway.policyLookup ctx0).ceiling_price =
      roundTo 2 ((80:ℚ) * 2) := rfl
  rw [h, roundTo_eq_intCast 2 _ 16000 (by norm_num)]
  norm_num

theorem rules0_mm :
    (rulesExecute emptyGateway.policyLookup ctx0).min_margin_pct = 1/10 := rfl

theorem rules0_bands :
    (rulesExecute emptyGateway.policyLookup ctx0).approval_bands = defaultBands := rfl

/-- C3: for every price, cogs and context, `get_approval_band` returns
exactly one of APPROVED, REVIEW, REJECT; for positive cogs it agrees
with the spec's three-way classification of
`margin_pct = (price - cogs) / cogs` against the recomputed bounds
(REJECT below the minimum margin, else APPROVED up to the ceiling, else
REVIEW); and under the default policy with cogs 80, price 75.0 is
REJECT, price 200.0 is REVIEW and price 100.0 is APPROVED. -/
theorem C3_approval_band_classification :
    (∀ (pl : String → String → Option PolicyRow) (p c : ℚ) (ctx : Ctx),
        getApprovalBand pl p c ctx = "APPROVED" ∨
          getApprovalBand pl p c ctx = "REVIEW" ∨
          getApprovalBand pl p c ctx = "REJECT") ∧
    (∀ (pl : String → String → Option PolicyRow) (p c : ℚ) (ctx : Ctx), 0 < c →
        getApprovalBand pl p c ctx =
          specApprovalBand (rulesExecute pl ctx).min_margin_pct
            (rulesExecute pl ctx).ceiling_price p c) ∧
    getApprovalBand emptyGateway.policyLookup 75 80 ctx0 = "REJECT" ∧
    getApprovalBand emptyGateway.policyLookup 200 80 ctx0 = "REVIEW" ∧
    getApprovalBand emptyGateway.policyLookup 100 80 ctx0 = "APPROVED" := by
  refine ⟨?_, ?_, ?_, ?_, ?_⟩
  · intro pl p c ctx
    rw [getApprovalBand]
    split_ifs <;> simp
  · intro pl p c ctx hc
    rw [getApprovalBand, specApprovalBand]
    rw [if_pos hc]
    split_ifs <;> first | rfl | linarith
  · rw [getApprovalBand, rules0_mm, rules0_ceiling]
    norm_num
  · rw [getApprovalBand, rules0_mm, rules0_ceiling]
    norm_num
  · rw [getApprovalBand, rules0_mm, rules0_ceiling]
    norm_num

/-- C3 witness: the classification clause applied at the concrete input
cogs = 80, price = 75 under the default policy. -/
theorem C3_approval_band_classification_witness :
    (0:ℚ) < 80 ∧
      getApprovalBand emptyGateway.policyLookup 75 80 ctx0 =
        specApprovalBand (rulesExecute emptyGateway.policyLookup ctx0).min_margin_pct
          (rulesExecute emptyGateway.policyLookup ctx0).ceiling_price 75 80 :=
  ⟨by norm_num,
    C3_approval_band_classification.2.1 emptyGateway.policyLookup 75 80 ctx0 (by norm_num)⟩

/-- C4: `RulesAgent.execute` computes `floor_price = cogs * (1 + min_margin_pct)`
and `ceiling_price = cogs * ceiling_pct` (rounded to 2 decimals in the
returned dictionary), applies the default policy
`min_margin_pct = 0.10`, `ceiling_pct = 2.0`,
bands [APPROVED, REVIEW, REJECT] when no policy row matches
`(region, product_family)`, and in particular cogs = 80 under the
default policy yields `floor_price = 88.0`, `ceiling_price = 160.0`
(both exact, the rounding being the identity there). -/
theorem C4_rules_bounds :
    (∀ (pl : String → String → Option PolicyRow) (ctx : Ctx),
        pl ctx.region ctx.product_family = none →
          rulesExecute pl ctx =
            { floor_price := roundTo 2 (ctx.cogs * (1 + 1/10))
              ceiling_price := roundTo 2 (ctx.cogs * 2)
              min_margin_pct := 1/10
              approval_bands := defaultBands
              policy_source := ctx.region ++ "-" ++ ctx.product_family }) ∧
    (∀ (pl : String → String → Option PolicyRow) (ctx : Ctx) (row : PolicyRow),
        pl ctx.region ctx.product_family = some row →
          (rulesExecute pl ctx).floor_price =
              roundTo 2 (ctx.cogs * (1 + row.min_margin_pct)) ∧
            (rulesExecute pl ctx).ceiling_price = roundTo 2 (ctx.cogs * row.ceiling_pct) ∧
            (rulesExecute pl ctx).min_margin_pct = row.min_margin_pct) ∧
    (rulesExecute emptyGateway.policyLookup ctx0).floor_price = 88 ∧
    (rulesExecute emptyGateway.policyLookup ctx0).ceiling_price = 160 ∧
    (rulesExecute emptyGateway.policyLookup ctx0).min_margin_pct = 1/10 ∧
    (rulesExecute emptyGateway.policyLookup ctx0).approval_bands = defaultBands := by
  refine ⟨?_, ?_, rules0_floor, rules0_ceiling, rules0_mm, rules0_bands⟩
  · intro pl ctx h
    rw [rulesExecute]
    simp [h]
  · intro pl ctx row h
    rw [rulesExecute]
    simp [h]

/-- C4 witness: the miss clause applied at the empty policy table and the
default request context. -/
theorem C4_rules_bounds_witness :
    emptyGateway.policyLookup ctx0.region ctx0.product_family = none ∧
      rulesExecute emptyGateway.policyLookup ctx0 =
        { floor_price := roundTo 2 (ctx0.cogs * (1 + 1/10))
          ceiling_price := roundTo 2 (ctx0.cogs * 2)
          min_margin_pct := 1/10
          approval_bands := defaultBands
          policy_source := ctx0.region ++ "-" ++ ctx0.product_family } :=
  ⟨rfl, C4_rules_bounds.1 emptyGateway.policyLookup ctx0 rfl⟩

/-- C8: context enrichment never raises: every missing enriched field is
filled at creation with the documented defaults
(`product_family = "Widgets"`, `cogs = 80.0`,
`customer_segment = "Enterprise"`, `region = "EMEA"`,
`competitor_price = cogs * 1.3`), and values found by lookup are kept,
never overwritten by the defaults. -/
theorem C8_enrichment_defaults (g : Gateway) (sku cid : String) (q : ℚ)
    (co ch cu : String) :
    (g.productLookup sku = none →
        (enrichContext g sku cid q co ch cu).product_family = "Widgets" ∧
          (enrichContext g sku cid q co ch cu).cogs = 80) ∧
    (∀ p : ProductRow, g.productLookup sku = some p →
        (enrichContext g sku cid q co ch cu).product_family = p.family ∧
          (enrichContext g sku cid q co ch cu).product_id = some p.product_id ∧
          (g.cogsLookup p.product_id = none →
            (enrichContext g sku cid q co ch cu).cogs = 80) ∧
          (∀ c : ℚ, g.cogsLookup p.product_id = some c →
            (enrichContext g sku cid q co ch cu).cogs = c)) ∧
    (g.customerLookup cid = none →
        (enrichContext g sku cid q co ch cu).customer_segment = "Enterprise" ∧
          (enrichContext g sku cid q co ch cu).region = "EMEA") ∧
    (∀ r : CustomerRow, g.customerLookup cid = some r →
        (enrichContext g sku cid q co ch cu).customer_segment = r.segment ∧
          (enrichContext g sku cid q co ch cu).region = r.region ∧
          (enrichContext g sku cid q co ch cu).industry = some r.industry) ∧
    (enrichContext g sku cid q co ch cu).competitor_price =
        (enrichContext g sku cid q co ch cu).cogs * (13/10) ∧
    (enrichContext g sku cid q co ch cu).current_price = none ∧
    (enrichContext g sku cid q co ch cu).target_price = none ∧
    (enrichContext g sku cid q co ch cu).proposed_price = none ∧
    (enrichContext g sku cid q co ch cu).sku = sku ∧
    (enrichContext g sku cid q co ch cu).customer_id = cid ∧
    (enrichContext g sku cid q co ch cu).quantity = q := by
  refine ⟨?_, ?_, ?_, ?_, rfl, rfl, rfl, rfl, rfl, rfl, rfl⟩
  · intro h
    constructor <;> simp [enrichContext, h]
  · intro p h
    refine ⟨by simp [enrichContext, h], by simp [enrichContext, h], ?_, ?_⟩
    · intro h2
      simp [enrichContext, h, h2]
    · intro c h2
      simp [enrichContext, h, h2]
  · intro h
    constructor <;> simp [enrichContext, h]
  · intro r h
    refine ⟨by simp [enrichContext, h], by simp [enrichContext, h], by simp [enrichContext, h]⟩

/-- C8 witness: the product-miss and customer-miss clauses applied at the
empty gateway. -/
theorem C8_enrichment_defaults_witness :
    emptyGateway.productLookup "SKU1" = none ∧
      (enrichContext emptyGateway "SKU1" "C001" 10 "DE" "Direct" "EUR").product_family =
        "Widgets" ∧
      (enrichContext emptyGateway "SKU1" "C001" 10 "DE" "Direct" "EUR").cogs = 80 := by
  obtain ⟨h1, h2⟩ :=
    (C8_enrichment_defaults emptyGateway "SKU1" "C001" 10 "DE" "Direct" "EUR").1 rfl
  exact ⟨rfl, h1, h2⟩

/-- C9: any exception thrown inside the recommend pipeline is caught at
the `model_service.recommend` boundary and converted to the structured
error form; the caller gets either a complete recommendation or exactly
the error dictionary, never anything partial. -/
theorem C9_recommend_error_boundary (p : Except String Recommendation) :
    (∀ r : Recommendation, p = Except.ok r →
        modelServiceRecommend p = RecommendResponse.success r) ∧
    (∀ e : String, p = Except.error e →
        modelServiceRecommend p = RecommendResponse.failure { error := e }) ∧
    ((∃ r : Recommendation, modelServiceRecommend p = RecommendResponse.success r) ∨
      (∃ m : String, modelServiceRecommend p = RecommendResponse.failure { error := m })) := by
  refine ⟨?_, ?_, ?_⟩
  · rintro r rfl
    rfl
  · rintro e rfl
    rfl
  · cases p with
    | ok r => exact Or.inl ⟨r, rfl⟩
    | error e => exact Or.inr ⟨e, rfl⟩

/-- C9 witness: a throwing pipeline becomes exactly the structured error
result. -/
theorem C9_recommend_error_boundary_witness :
    modelServiceRecommend (Except.error "boom") =
      RecommendResponse.failure { error := "boom" } :=
  (C9_recommend_error_boundary (Except.error "boom")).2.1 "boom" rfl

/-- Concrete context of the spec's elasticity example: Enterprise/EMEA
segment, quantity 10, current price 100, proposed price 110 (a 10% price
increase). -/
def ctx5 : Ctx :=
  { sku := "SKU1"
    customer_id := "C001"
    quantity := 10
    country := "DE"
    channel := "Direct"
    currency := "EUR"
    product_family := "Widgets"
    cogs := 80
    customer_segment := "Enterprise"
    region := "EMEA"
    competitor_price := 104
    current_price := some 100
    proposed_price := some 110 }

theorem adjustedElasticity_ee10 (ctx : Ctx) (hs : ctx.customer_segment = "Enterprise")
    (hr : ctx.region = "EMEA") (hq : ctx.quantity = 10) :
    adjustedElasticity ctx = -57/50 := by
  have hp : elasticityParams "Enterprise" "EMEA" = (-6/5, 1/10) := by
    simp [elasticityParams]
  rw [adjustedElasticity, volumeFactor, hs, hr, hq, hp]
  norm_num [min_def]

theorem priceChangePct_ctx5 : priceChangePct ctx5 = 1/10 := by
  have hc : elastCurrentPrice ctx5 = 100 := rfl
  have hp : elastProposedPrice ctx5 = 110 := rfl
  rw [priceChangePct, hc, hp]
  norm_num

theorem demandChangePct_ctx5 : demandChangePct ctx5 = -57/500 := by
  rw [demandChangePct, adjustedElasticity_ee10 ctx5 rfl rfl rfl, priceChangePct_ctx5]
  norm_num

/-- C5: `ElasticityAgent.execute` computes
`adjusted_elasticity = base_elasticity * (1 - min(1, quantity/20) * volume_adj)`
with the base looked up by (segment, region) and `-1.5` when the key is
absent from the table, `price_change_pct = (proposed - current)/current`
guarded to 0 when `current <= 0`,
`demand_change_pct = adjusted_elasticity * price_change_pct`,
`new_quantity = max(1, quantity * (1 + demand_change_pct))`; and for the
Enterprise/EMEA segment at quantity 10 the adjusted elasticity is -1.14,
and a 10% price increase gives `demand_change_pct = -0.114` (both also
as reported after the result rounding). -/
theorem C5_elasticity_evaluate :
    (∀ ctx : Ctx, adjustedElasticity ctx =
        (elasticityParams ctx.customer_segment ctx.region).1 *
          (1 - min 1 (ctx.quantity / 20) *
            (elasticityParams ctx.customer_segment ctx.region).2)) ∧
    (∀ s r : String,
        (s, r) ∉ ([("Enterprise", "EMEA"), ("Enterprise", "Americas"),
            ("SMB", "EMEA"), ("SMB", "Americas")] : List (String × String)) →
          (elasticityParams s r).1 = -3/2) ∧
    (∀ ctx : Ctx, 0 < elastCurrentPrice ctx →
        priceChangePct ctx =
          (elastProposedPrice ctx - elastCurrentPrice ctx) / elastCurrentPrice ctx) ∧
    (∀ ctx : Ctx, elastCurrentPrice ctx ≤ 0 → priceChangePct ctx = 0) ∧
    (∀ ctx : Ctx, demandChangePct ctx = adjustedElasticity ctx * priceChangePct ctx) ∧
    (∀ ctx : Ctx, newQuantity ctx = max 1 (ctx.quantity * (1 + demandChangePct ctx))) ∧
    adjustedElasticity ctx5 = -57/50 ∧
    (elasticityExecute ctx5).price_elasticity = -57/50 ∧
    demandChangePct ctx5 = -57/500 ∧
    (elasticityExecute ctx5).demand_change_pct = -57/500 := by
  refine ⟨fun ctx => rfl, ?_, ?_, ?_, fun ctx => rfl, fun ctx => rfl,
    adjustedElasticity_ee10 ctx5 rfl rfl rfl, ?_, demandChangePct_ctx5, ?_⟩
  · intro s r h
    rw [elasticityParams]
    split_ifs with h1 h2 h3 h4
    · exact absurd (by simp [h1.1, h1.2]) h
    · exact absurd (by simp [h2.1, h2.2]) h
    · exact absurd (by simp [h3.1, h3.2]) h
    · exact absurd (by simp [h4.1, h4.2]) h
    · norm_num
  · intro ctx hc
    rw [priceChangePct, if_pos hc]
  · intro ctx hc
    rw [priceChangePct, if_neg (not_lt.mpr hc)]
  · have h : (elasticityExecute ctx5).price_elasticity =
        roundTo 2 (adjustedElasticity ctx5) := rfl
    rw [h, adjustedElasticity_ee10 ctx5 rfl rfl rfl,
      roundTo_eq_intCast 2 _ (-114) (by norm_num)]
    norm_num
  · have h : (elasticityExecute ctx5).demand_change_pct =
        roundTo 3 (demandChangePct ctx5) := rfl
    rw [h, demandChangePct_ctx5, roundTo_eq_intCast 3 _ (-114) (by norm_num)]
    norm_num

/-- C5 witness: the table-miss clause applied at a segment and region
outside the table. -/
theorem C5_elasticity_evaluate_witness :
    (("Gov", "APAC") ∉ ([("Enterprise", "EMEA"), ("Enterprise", "Americas"),
        ("SMB", "EMEA"), ("SMB", "Americas")] : List (String × String))) ∧
      (elasticityParams "Gov" "APAC").1 = -3/2 :=
  ⟨by decide, C5_elasticity_evaluate.2.1 "Gov" "APAC" (by decide)⟩

/-- C6: the adjusted elasticity is strictly negative for every context
with quantity at least 1 (for every table entry and for the default
parameters), and a price increase always gives a nonpositive demand
change. -/
theorem C6_elasticity_sign (ctx : Ctx) (_hq : 1 ≤ ctx.quantity) :
    adjustedElasticity ctx < 0 ∧
      (0 < priceChangePct ctx → demandChangePct ctx ≤ 0) := by
  refine ⟨adjustedElasticity_neg ctx, ?_⟩
  intro hpc
  rw [demandChangePct]
  exact le_of_lt (mul_neg_of_neg_of_pos (adjustedElasticity_neg ctx) hpc)

/-- C6 witness: the sign property applied at the concrete
Enterprise/EMEA context with quantity 10 and a 10% price increase. -/
theorem C6_elasticity_sign_witness :
    (1:ℚ) ≤ ctx5.quantity ∧ 0 < priceChangePct ctx5 ∧
      adjustedElasticity ctx5 < 0 ∧ demandChangePct ctx5 ≤ 0 := by
  have hq : (1:ℚ) ≤ ctx5.quantity := by norm_num [ctx5]
  have hpc : 0 < priceChangePct ctx5 := by
    rw [priceChangePct_ctx5]
    norm_num
  obtain ⟨h1, h2⟩ := C6_elasticity_sign ctx5 hq
  exact ⟨hq, hpc, h1, h2 hpc⟩

/-! Helper lemmas connecting the candidate list to the grid and the
recommendation record to the intermediate selections. -/

theorem gridPoint20_last (fl ce : ℚ) : gridPoint fl ce 20 19 = ce := by
  have h := gridPoint_last fl ce 20 (by norm_num)
  norm_num at h
  exact h

theorem candidateScores_length (winProb : ℚ → ℚ) (ctx : Ctx) (fl ce : ℚ) :
    (candidateScores winProb ctx fl ce).length = 20 := by
  simp [candidateScores, priceGrid]

theorem candidateScores_ne_nil (winProb : ℚ → ℚ) (ctx : Ctx) (fl ce : ℚ) :
    candidateScores winProb ctx fl ce ≠ [] := by
  intro h
  have h2 := candidateScores_length winProb ctx fl ce
  rw [h] at h2
  simp at h2

theorem candidateScores_map_price (winProb : ℚ → ℚ) (ctx : Ctx) (fl ce : ℚ) :
    (candidateScores winProb ctx fl ce).map (fun c => c.price) = priceGrid fl ce 20 := by
  rw [candidateScores, List.map_map]
  have h : ((fun c => c.price) ∘ candidateScore winProb ctx) = id := funext fun p => rfl
  rw [h, List.map_id]

theorem candidateScores_price_mem (winProb : ℚ → ℚ) (ctx : Ctx) (fl ce : ℚ)
    (c : Candidate) (h : c ∈ candidateScores winProb ctx fl ce) :
    c.price ∈ priceGrid fl ce 20 := by
  have h2 : c.price ∈ (candidateScores winProb ctx fl ce).map (fun c => c.price) :=
    List.mem_map_of_mem _ h
  rwa [candidateScores_map_price] at h2

theorem candidateScores_price_bounds (winProb : ℚ → ℚ) (ctx : Ctx) (fl ce : ℚ)
    (c : Candidate) (hle : fl ≤ ce) (h : c ∈ candidateScores winProb ctx fl ce) :
    fl ≤ c.price ∧ c.price ≤ ce := by
  obtain ⟨k, hk, hp⟩ := priceGrid_mem fl ce 20 c.price (candidateScores_price_mem winProb ctx fl ce c h)
  rw [hp]
  exact ⟨gridPoint_ge fl ce 20 k (by norm_num) hle,
    gridPoint_le fl ce 20 k (by norm_num) hk hle⟩

theorem recommendPrice_target_eq (winProb : ℚ → ℚ) (g : Gateway) (sku cid : String)
    (q : ℚ) (co ch cu : String) :
    (recommendPrice winProb g sku cid q co ch cu).target =
      roundTo 2 (targetPrice winProb (enrichContext g sku cid q co ch cu)
        (rulesExecute g.policyLookup (enrichContext g sku cid q co ch cu)).floor_price
        (rulesExecute g.policyLookup (enrichContext g sku cid q co ch cu)).ceiling_price) := rfl

theorem recommendPrice_stretch_eq (winProb : ℚ → ℚ) (g : Gateway) (sku cid : String)
    (q : ℚ) (co ch cu : String) :
    (recommendPrice winProb g sku cid q co ch cu).stretch =
      roundTo 2 (stretchPrice winProb (enrichContext g sku cid q co ch cu)
        (rulesExecute g.policyLookup (enrichContext g sku cid q co ch cu)).floor_price
        (rulesExecute g.policyLookup (enrichContext g sku cid q co ch cu)).ceiling_price) := rfl

theorem roundTo2_exists_int (x : ℚ) : ∃ i : ℤ, roundTo 2 x = (i : ℚ) / 100 := by
  refine ⟨rhe (x * 10 ^ 2), ?_⟩
  rw [roundTo]
  norm_num

theorem rulesExecute_floor_as_int (pl : String → String → Option PolicyRow) (ctx : Ctx) :
    ∃ i : ℤ, (rulesExecute pl ctx).floor_price = (i : ℚ) / 100 :=
  roundTo2_exists_int _

theorem rulesExecute_ceiling_as_int (pl : String → String → Option PolicyRow) (ctx : Ctx) :
    ∃ i : ℤ, (rulesExecute pl ctx).ceiling_price = (i : ℚ) / 100 :=
  roundTo2_exists_int _

theorem roundTo2_intCast_div (j : ℤ) : roundTo 2 ((j : ℚ) / 100) = (j : ℚ) / 100 := by
  rw [roundTo_eq_intCast 2 _ j (by ring)]
  norm_num

theorem pymax_eq_none {α : Type} (f : α → ℚ) (l : List α) (h : pymax f l = none) :
    l = [] := by
  cases l with
  | nil => rfl
  | cons x xs => simp [pymax] at h

/-- C1: the orchestrator's `recommend_price` builds an ascending grid of
exactly 20 equally spaced candidate prices spanning
[floor_price, ceiling_price] inclusive, scores every candidate with
`expected_margin = (price - cogs) * win_probability`, and selects as
target price the first candidate in grid order attaining the maximal
expected margin (Python's `max` keeps the earliest maximum). -/
theorem C1_recommend_grid_and_target (winProb : ℚ → ℚ) (g : Gateway)
    (sku cid : String) (q : ℚ) (co ch cu : String) (ctx : Ctx) (fl ce : ℚ)
    (hctx : ctx = enrichContext g sku cid q co ch cu)
    (hfl : fl = (rulesExecute g.policyLookup ctx).floor_price)
    (hce : ce = (rulesExecute g.policyLookup ctx).ceiling_price)
    (hle : fl ≤ ce) :
    (priceGrid fl ce 20).length = 20 ∧
    (priceGrid fl ce 20)[0]? = some fl ∧
    (priceGrid fl ce 20)[19]? = some ce ∧
    (∀ k : ℕ, gridPoint fl ce 20 (k + 1) - gridPoint fl ce 20 k = (ce - fl) / 19) ∧
    (∀ j k : ℕ, j ≤ k → gridPoint fl ce 20 j ≤ gridPoint fl ce 20 k) ∧
    ((candidateScores winProb ctx fl ce).map (fun c => c.price) = priceGrid fl ce 20) ∧
    (∀ c ∈ candidateScores winProb ctx fl ce,
        c.expected_margin = (c.price - ctx.cogs) * winProb c.price) ∧
    (∃ cbest : Candidate,
        targetCandidate winProb ctx fl ce = some cbest ∧
        targetPrice winProb ctx fl ce = cbest.price ∧
        (recommendPrice winProb g sku cid q co ch cu).target = roundTo 2 cbest.price ∧
        (∀ d ∈ candidateScores winProb ctx fl ce,
            d.expected_margin ≤ cbest.expected_margin) ∧
        ∃ l1 l2, candidateScores winProb ctx fl ce = l1 ++ cbest :: l2 ∧
            ∀ d ∈ l1, d.expected_margin < cbest.expected_margin) := by
  refine ⟨priceGrid_length fl ce 20, ?_, ?_, fun k => gridPoint20_spacing fl ce k,
    fun j k h => gridPoint20_mono fl ce j k h hle,
    candidateScores_map_price winProb ctx fl ce, ?_, ?_⟩
  · simp [priceGrid, gridPoint_zero]
  · simp [priceGrid, gridPoint20_last]
  · intro c hc
    rw [candidateScores] at hc
    obtain ⟨p, hp, rfl⟩ := List.mem_map.mp hc
    rfl
  · have hne := candidateScores_ne_nil winProb ctx fl ce
    generalize hS : candidateScores winProb ctx fl ce = S at hne ⊢
    obtain ⟨cbest, hcb⟩ := pymax_isSome (fun c => c.expected_margin) S hne
    have hcb2 : targetCandidate winProb ctx fl ce = some cbest := by
      rw [targetCandidate, hS]
      exact hcb
    have ht : targetPrice winProb ctx fl ce = cbest.price := by
      rw [targetPrice, hcb2]
    obtain ⟨hmax, l1, l2, hsplit, hfirst⟩ :=
      pymax_spec (fun c => c.expected_margin) S cbest hcb
    refine ⟨cbest, hcb2, ht, ?_, hmax, l1, l2, hsplit, hfirst⟩
    rw [recommendPrice_target_eq, ← hctx, ← hfl, ← hce, ht]

/-- C1 witness: the theorem applied at the default request against the
empty gateway, where the bounds are 88 and 160. -/
theorem C1_recommend_grid_and_target_witness :
    ((88:ℚ) ≤ 160) ∧ (priceGrid (88:ℚ) 160 20).length = 20 :=
  ⟨by norm_num,
    (C1_recommend_grid_and_target (fun _ => 1/2) emptyGateway "SKU1" "C001" 10 "DE"
      "Direct" "EUR" ctx0 88 160 rfl rules0_floor.symm rules0_ceiling.symm
      (by norm_num)).1⟩

theorem viable_win_prob (winProb : ℚ → ℚ) (ctx : Ctx) (fl ce : ℚ) (c : Candidate)
    (h : c ∈ viableCandidates winProb ctx fl ce) : 1/5 < c.win_probability := by
  rw [viableCandidates, List.mem_filter] at h
  simpa using h.2

theorem viable_subset (winProb : ℚ → ℚ) (ctx : Ctx) (fl ce : ℚ) (c : Candidate)
    (h : c ∈ viableCandidates winProb ctx fl ce) :
    c ∈ candidateScores winProb ctx fl ce := by
  rw [viableCandidates, List.mem_filter] at h
  exact h.1

theorem targetPrice_bounds (winProb : ℚ → ℚ) (ctx : Ctx) (fl ce : ℚ) (hle : fl ≤ ce) :
    fl ≤ targetPrice winProb ctx fl ce ∧ targetPrice winProb ctx fl ce ≤ ce := by
  have hne := candidateScores_ne_nil winProb ctx fl ce
  have hb : ∀ c : Candidate, c ∈ candidateScores winProb ctx fl ce →
      fl ≤ c.price ∧ c.price ≤ ce :=
    fun c hc => candidateScores_price_bounds winProb ctx fl ce c hle hc
  have htc : ∀ c : Candidate, targetCandidate winProb ctx fl ce = some c →
      targetPrice winProb ctx fl ce = c.price := by
    intro c hc
    rw [targetPrice, hc]
  generalize hS : candidateScores winProb ctx fl ce = S at hne hb
  obtain ⟨cbest, hcb⟩ := pymax_isSome (fun c => c.expected_margin) S hne
  have hcb2 : targetCandidate winProb ctx fl ce = some cbest := by
    rw [targetCandidate, hS]
    exact hcb
  have hmem : cbest ∈ S := by
    obtain ⟨_, l1, l2, hsplit, _⟩ := pymax_spec (fun c => c.expected_margin) S cbest hcb
    rw [hsplit]
    exact List.mem_append.mpr (Or.inr (List.mem_cons_self cbest l2))
  rw [htc cbest hcb2]
  exact hb cbest hmem

theorem stretchPrice_spec (winProb : ℚ → ℚ) (ctx : Ctx) (fl ce : ℚ) :
    (∀ c ∈ viableCandidates winProb ctx fl ce,
        c.price ≤ stretchPrice winProb ctx fl ce) ∧
    (viableCandidates winProb ctx fl ce ≠ [] →
        ∃ c, c ∈ viableCandidates winProb ctx fl ce ∧
          stretchPrice winProb ctx fl ce = c.price) ∧
    (viableCandidates winProb ctx fl ce = [] → stretchPrice winProb ctx fl ce = ce) := by
  have hs : ∀ c : Candidate,
      pymax (fun c => c.price) (viableCandidates winProb ctx fl ce) = some c →
      stretchPrice winProb ctx fl ce = c.price := by
    intro c hc
    rw [stretchPrice, hc]
  have hn : pymax (fun c => c.price) (viableCandidates winProb ctx fl ce) = none →
      stretchPrice winProb ctx fl ce = ce := by
    intro hc
    rw [stretchPrice, hc]
  generalize hV : viableCandidates winProb ctx fl ce = V at hs hn ⊢
  cases hv : pymax (fun c => c.price) V with
  | none =>
    have hnil := pymax_eq_none _ _ hv
    subst hnil
    refine ⟨by simp, ?_, fun _ => hn hv⟩
    intro h
    exact absurd rfl h
  | some c0 =>
    obtain ⟨hmax, l1, l2, hsplit, _⟩ := pymax_spec (fun c => c.price) V c0 hv
    have hmem : c0 ∈ V := by
      rw [hsplit]
      exact List.mem_append.mpr (Or.inr (List.mem_cons_self c0 l2))
    refine ⟨?_, ?_, ?_⟩
    · intro c hc
      rw [hs c0 hv]
      exact hmax c hc
    · intro _
      exact ⟨c0, hmem, hs c0 hv⟩
    · intro h
      rw [h] at hv
      simp [pymax] at hv

theorem stretchPrice_bounds (winProb : ℚ → ℚ) (ctx : Ctx) (fl ce : ℚ) (hle : fl ≤ ce) :
    fl ≤ stretchPrice winProb ctx fl ce ∧ stretchPrice winProb ctx fl ce ≤ ce := by
  obtain ⟨_, hsome, hnone⟩ := stretchPrice_spec winProb ctx fl ce
  by_cases hv : viableCandidates winProb ctx fl ce = []
  · rw [hnone hv]
    exact ⟨hle, le_rfl⟩
  · obtain ⟨c, hc, hsp⟩ := hsome hv
    rw [hsp]
    exact candidateScores_price_bounds winProb ctx fl ce c hle
      (viable_subset winProb ctx fl ce c hc)

/-- C2: the stretch price is the highest-priced grid candidate whose win
probability exceeds 0.2, and the ceiling price when no candidate
qualifies; and whenever the policy is internally consistent
(floor_price at most ceiling_price), the returned target and stretch
prices — after the final rounding to 2 decimals — both lie within
[floor_price, ceiling_price]. -/
theorem C2_stretch_and_price_bounds (winProb : ℚ → ℚ) (g : Gateway)
    (sku cid : String) (q : ℚ) (co ch cu : String) (ctx : Ctx) (fl ce : ℚ)
    (hctx : ctx = enrichContext g sku cid q co ch cu)
    (hfl : fl = (rulesExecute g.policyLookup ctx).floor_price)
    (hce : ce = (rulesExecute g.policyLookup ctx).ceiling_price)
    (hle : fl ≤ ce) :
    (∀ c ∈ viableCandidates winProb ctx fl ce,
        c.price ≤ stretchPrice winProb ctx fl ce) ∧
    (viableCandidates winProb ctx fl ce ≠ [] →
        ∃ c, c ∈ viableCandidates winProb ctx fl ce ∧
          stretchPrice winProb ctx fl ce = c.price ∧ 1/5 < c.win_probability) ∧
    (viableCandidates winProb ctx fl ce = [] → stretchPrice winProb ctx fl ce = ce) ∧
    fl ≤ (recommendPrice winProb g sku cid q co ch cu).target ∧
    (recommendPrice winProb g sku cid q co ch cu).target ≤ ce ∧
    fl ≤ (recommendPrice winProb g sku cid q co ch cu).stretch ∧
    (recommendPrice winProb g sku cid q co ch cu).stretch ≤ ce := by
  obtain ⟨i, hi⟩ := rulesExecute_floor_as_int g.policyLookup ctx
  obtain ⟨j, hj⟩ := rulesExecute_ceiling_as_int g.policyLookup ctx
  have hfi : fl = (i : ℚ) / 100 := hfl.trans hi
  have hcj : ce = (j : ℚ) / 100 := hce.trans hj
  have hround : ∀ x : ℚ, fl ≤ x → x ≤ ce → fl ≤ roundTo 2 x ∧ roundTo 2 x ≤ ce := by
    intro x h1 h2
    rw [hfi] at h1 ⊢
    rw [hcj] at h2 ⊢
    exact ⟨roundTo2_ge x i h1, roundTo2_le x j h2⟩
  obtain ⟨hsmax, hssome, hsnone⟩ := stretchPrice_spec winProb ctx fl ce
  have htb := targetPrice_bounds winProb ctx fl ce hle
  have hsb := stretchPrice_bounds winProb ctx fl ce hle
  have htarget : (recommendPrice winProb g sku cid q co ch cu).target =
      roundTo 2 (targetPrice winProb ctx fl ce) := by
    rw [recommendPrice_target_eq, ← hctx, ← hfl, ← hce]
  have hstretch : (recommendPrice winProb g sku cid q co ch cu).stretch =
      roundTo 2 (stretchPrice winProb ctx fl ce) := by
    rw [recommendPrice_stretch_eq, ← hctx, ← hfl, ← hce]
  have ht2 := hround _ htb.1 htb.2
  have hs2 := hround _ hsb.1 hsb.2
  refine ⟨hsmax, ?_, hsnone, ?_, ?_, ?_, ?_⟩
  · intro hne
    obtain ⟨c, hc, hsp⟩ := hssome hne
    exact ⟨c, hc, hsp, viable_win_prob winProb ctx fl ce c hc⟩
  · rw [htarget]
    exact ht2.1
  · rw [htarget]
    exact ht2.2
  · rw [hstretch]
    exact hs2.1
  · rw [hstretch]
    exact hs2.2

/-- C2 witness: the theorem applied at the default request against the
empty gateway, where the bounds are 88 and 160. -/
theorem C2_stretch_and_price_bounds_witness :
    ((88:ℚ) ≤ 160) ∧
      88 ≤ (recommendPrice (fun _ => 1/2) emptyGateway "SKU1" "C001" 10 "DE" "Direct"
        "EUR").target ∧
      (recommendPrice (fun _ => 1/2) emptyGateway "SKU1" "C001" 10 "DE" "Direct"
        "EUR").target ≤ 160 := by
  have h := C2_stretch_and_price_bounds (fun _ => 1/2) emptyGateway "SKU1" "C001" 10
    "DE" "Direct" "EUR" ctx0 88 160 rfl rules0_floor.symm rules0_ceiling.symm
    (by norm_num)
  exact ⟨by norm_num, h.2.2.2.1, h.2.2.2.2.1⟩

/-- C7 (amended): the curve operation evaluates the model over the
15-point grid spanning [floor_price, ceiling_price]: the returned
sequence has exactly the grid's length, preserves the grid order, and
each point's probability is one independent predict call at that grid
price; the reported prices (rounded to 2 decimals) are strictly
ascending whenever `ceiling_price - floor_price > 0.14`, that is, the
grid spacing exceeds the rounding granularity. -/
theorem C7_curve_grid_amended (predict : ℚ → ℚ) (g : Gateway)
    (sku cid : String) (q : ℚ) (co ch cu : String) (ctx : Ctx) (fl ce : ℚ)
    (hctx : ctx = enrichContext g sku cid q co ch cu)
    (hfl : fl = (rulesExecute g.policyLookup ctx).floor_price)
    (hce : ce = (rulesExecute g.policyLookup ctx).ceiling_price) :
    (orchGetWinCurve predict g sku cid q co ch cu).length = 15 ∧
    (∀ k : ℕ, k < 15 →
        (orchGetWinCurve predict g sku cid q co ch cu)[k]? =
          some { price := roundTo 2 (gridPoint fl ce 15 k)
                 p_win := predict (gridPoint fl ce 15 k) }) ∧
    (14/100 < ce - fl →
        ∀ j2 k2 : ℕ, j2 < k2 → k2 < 15 →
          ∃ pj pk : CurvePoint,
            (orchGetWinCurve predict g sku cid q co ch cu)[j2]? = some pj ∧
            (orchGetWinCurve predict g sku cid q co ch cu)[k2]? = some pk ∧
            pj.price < pk.price) := by
  have hcur : orchGetWinCurve predict g sku cid q co ch cu =
      winCurve predict (priceGrid fl ce 15) := by
    rw [orchGetWinCurve, ← hctx, ← hfl, ← hce]
  have hget : ∀ k : ℕ, k < 15 →
      (orchGetWinCurve predict g sku cid q co ch cu)[k]? =
        some { price := roundTo 2 (gridPoint fl ce 15 k)
               p_win := predict (gridPoint fl ce 15 k) } := by
    intro k hk
    rw [hcur]
    simp [winCurve, priceGrid, List.getElem?_map, List.getElem?_range, hk]
  refine ⟨?_, hget, ?_⟩
  · rw [hcur]
    simp [winCurve, priceGrid]
  · intro hgap j2 k2 hjk hk15
    refine ⟨_, _, hget j2 (hjk.trans hk15) , hget k2 hk15, ?_⟩
    exact roundTo2_lt_of_gap _ _ (gridPoint15_gap fl ce j2 k2 hjk hgap)

/-- C7 witness: the amended theorem applied at the default request, where
the bounds are 88 and 160 and the gap hypothesis holds. -/
theorem C7_curve_grid_amended_witness :
    ((14:ℚ)/100 < 160 - 88) ∧
      (∃ pj pk : CurvePoint,
        (orchGetWinCurve (fun _ => 1/2) emptyGateway "SKU1" "C001" 10 "DE" "Direct"
          "EUR")[0]? = some pj ∧
        (orchGetWinCurve (fun _ => 1/2) emptyGateway "SKU1" "C001" 10 "DE" "Direct"
          "EUR")[1]? = some pk ∧
        pj.price < pk.price) :=
  ⟨by norm_num,
    (C7_curve_grid_amended (fun _ => 1/2) emptyGateway "SKU1" "C001" 10 "DE" "Direct"
      "EUR" ctx0 88 160 rfl rules0_floor.symm rules0_ceiling.symm).2.2 (by norm_num)
      0 1 (by norm_num) (by norm_num)⟩

/-- Policy row making the floor and ceiling coincide:
`min_margin_pct = 0`, `ceiling_pct = 1`. -/
def policyRow7 : PolicyRow :=
  { min_margin_pct := 0, ceiling_pct := 1, approval_bands := defaultBands }

/-- Gateway whose policy table returns `policyRow7` for every key and
whose other lookups miss. -/
def gateway7 : Gateway := { emptyGateway with policyLookup := fun _ _ => some policyRow7 }

theorem rules7_floor :
    (rulesExecute gateway7.policyLookup ctx0).floor_price = 80 := by
  have h : (rulesExecute gateway7.policyLookup ctx0).floor_price =
      roundTo 2 ((80:ℚ) * (1 + 0)) := rfl
  rw [h, roundTo_eq_intCast 2 _ 8000 (by norm_num)]
  norm_num

theorem rules7_ceiling :
    (rulesExecute gateway7.policyLookup ctx0).ceiling_price = 80 := by
  have h : (rulesExecute gateway7.policyLookup ctx0).ceiling_price =
      roundTo 2 ((80:ℚ) * 1) := rfl
  rw [h, roundTo_eq_intCast 2 _ 8000 (by norm_num)]
  norm_num

/-- C7 counterexample: with a policy row whose bounds coincide
(`min_margin_pct = 0`, `ceiling_pct = 1`, so floor = ceiling = 80 for
the defaulted cogs 80), the 15 curve prices are all equal, hence not
strictly ascending — the claim's unconditional strict ascent is false. -/
theorem C7_curve_counterexample :
    (orchGetWinCurve (fun _ => 1/2) gateway7 "SKU1" "C001" 10 "DE" "Direct"
      "EUR").length = 15 ∧
    ¬ List.Pairwise (fun a b : ℚ => a < b)
        ((orchGetWinCurve (fun _ => 1/2) gateway7 "SKU1" "C001" 10 "DE" "Direct"
          "EUR").map (fun pt => pt.price)) := by
  have hctx7 : enrichContext gateway7 "SKU1" "C001" 10 "DE" "Direct" "EUR" = ctx0 := rfl
  have hcur : orchGetWinCurve (fun _ => (1:ℚ)/2) gateway7 "SKU1" "C001" 10 "DE" "Direct"
      "EUR" = winCurve (fun _ => (1:ℚ)/2) (priceGrid 80 80 15) := by
    rw [orchGetWinCurve, hctx7, rules7_floor, rules7_ceiling]
  have hval : ∀ (k : ℕ) (hk : k <
      ((winCurve (fun _ => (1:ℚ)/2) (priceGrid 80 80 15)).map (fun pt => pt.price)).length),
      ((winCurve (fun _ => (1:ℚ)/2) (priceGrid 80 80 15)).map (fun pt => pt.price))[k]
        = (80:ℚ) := by
    intro k hk
    simp only [winCurve, priceGrid, List.map_map, List.getElem_map, List.getElem_range]
    have hg : gridPoint 80 80 15 k = 80 := by
      rw [gridPoint]
      norm_num
    simp only [Function.comp]
    rw [hg, roundTo_eq_intCast 2 _ 8000 (by norm_num)]
    norm_num
  have hlen : ((winCurve (fun _ => (1:ℚ)/2) (priceGrid 80 80 15)).map
      (fun pt => pt.price)).length = 15 := by
    simp [winCurve, priceGrid]
  constructor
  · rw [hcur]
    simp [winCurve, priceGrid]
  · rw [hcur]
    intro hp
    rw [List.pairwise_iff_getElem] at hp
    have h01 := hp 0 1 (by rw [hlen]; norm_num) (by rw [hlen]; norm_num) (by norm_num)
    rw [hval 0 (by rw [hlen]; norm_num), hval 1 (by rw [hlen]; norm_num)] at h01
    exact lt_irrefl _ h01

/-- C10 (amended): `score_price` builds a context with neither
`current_price` nor `target_price`, so the Elasticity Agent falls back
to the hard-coded baseline current price 100: its demand change is
`adjusted_elasticity * (proposed_price - 100) / 100` independently of
the sku's cogs or actual price level, the reported `demand_change_pct`
is that quantity rounded to 3 decimals, and the unrounded quantity is 0
exactly when `proposed_price = 100`. -/
theorem C10_score_elasticity_baseline (g : Gateway) (sku cid : String) (q : ℚ)
    (co ch cu : String) (p : ℚ) :
    (scoreContext g sku cid q co ch cu p).current_price = none ∧
    (scoreContext g sku cid q co ch cu p).target_price = none ∧
    elastCurrentPrice (scoreContext g sku cid q co ch cu p) = 100 ∧
    demandChangePct (scoreContext g sku cid q co ch cu p) =
      adjustedElasticity (scoreContext g sku cid q co ch cu p) * ((p - 100) / 100) ∧
    (elasticityExecute (scoreContext g sku cid q co ch cu p)).demand_change_pct =
      roundTo 3 (adjustedElasticity (scoreContext g sku cid q co ch cu p) *
        ((p - 100) / 100)) ∧
    (demandChangePct (scoreContext g sku cid q co ch cu p) = 0 ↔ p = 100) := by
  have hcur : elastCurrentPrice (scoreContext g sku cid q co ch cu p) = 100 := rfl
  have hprop : elastProposedPrice (scoreContext g sku cid q co ch cu p) = p := rfl
  have hpcp : priceChangePct (scoreContext g sku cid q co ch cu p) = (p - 100) / 100 := by
    rw [priceChangePct, hcur, hprop]
    norm_num
  have hdem : demandChangePct (scoreContext g sku cid q co ch cu p) =
      adjustedElasticity (scoreContext g sku cid q co ch cu p) * ((p - 100) / 100) := by
    rw [demandChangePct, hpcp]
  have hfield : (elasticityExecute (scoreContext g sku cid q co ch cu p)).demand_change_pct =
      roundTo 3 (demandChangePct (scoreContext g sku cid q co ch cu p)) := rfl
  refine ⟨rfl, rfl, hcur, hdem, by rw [hfield, hdem], ?_⟩
  rw [hdem]
  constructor
  · intro h0
    rcases mul_eq_zero.mp h0 with ha | hb
    · exact absurd ha (adjustedElasticity_neg _).ne
    · rcases div_eq_zero_iff.mp hb with hc | hc
      · linarith
      · norm_num at hc
  · intro h
    rw [h]
    norm_num

/-- C10 counterexample: at proposed price 101 against the empty gateway
(Enterprise/EMEA defaults, quantity 10, adjusted elasticity -1.14), the
reported `demand_change_pct` is -0.011, while
`adjusted_elasticity * (proposed_price - 100)/100 = -0.0114`; the two
differ, so the reported value does not equal the claimed product. -/
theorem C10_score_counterexample :
    (elasticityExecute (scoreContext emptyGateway "SKU1" "C001" 10 "DE" "Direct" "EUR"
      101)).demand_change_pct = -11/1000 ∧
    adjustedElasticity (scoreContext emptyGateway "SKU1" "C001" 10 "DE" "Direct" "EUR"
      101) * ((101 - 100) / 100) = -57/5000 ∧
    ((-11:ℚ)/1000) ≠ -57/5000 := by
  have hadj : adjustedElasticity (scoreContext emptyGateway "SKU1" "C001" 10 "DE"
      "Direct" "EUR" 101) = -57/50 :=
    adjustedElasticity_ee10 _ rfl rfl rfl
  have hcur : elastCurrentPrice (scoreContext emptyGateway "SKU1" "C001" 10 "DE"
      "Direct" "EUR" 101) = 100 := rfl
  have hprop : elastProposedPrice (scoreContext emptyGateway "SKU1" "C001" 10 "DE"
      "Direct" "EUR" 101) = 101 := rfl
  have hpcp : priceChangePct (scoreContext emptyGateway "SKU1" "C001" 10 "DE" "Direct"
      "EUR" 101) = 1/100 := by
    rw [priceChangePct, hcur, hprop]
    norm_num
  have hdem : demandChangePct (scoreContext emptyGateway "SKU1" "C001" 10 "DE" "Direct"
      "EUR" 101) = -57/5000 := by
    rw [demandChangePct, hadj, hpcp]
    norm_num
  have hfloor : Rat.floor ((-57/5000 : ℚ) * 10 ^ 3) = -12 := by
    apply rfloor_eq
    · norm_num
    · norm_num
  have hrhe : rhe ((-57/5000 : ℚ) * 10 ^ 3) = -11 := by
    unfold rhe
    rw [hfloor]
    norm_num
  have hfield : (elasticityExecute (scoreContext emptyGateway "SKU1" "C001" 10 "DE"
      "Direct" "EUR" 101)).demand_change_pct =
      roundTo 3 (demandChangePct (scoreContext emptyGateway "SKU1" "C001" 10 "DE"
        "Direct" "EUR" 101)) := rfl
  refine ⟨?_, ?_, by norm_num⟩
  · rw [hfield, hdem, roundTo, hrhe]
    norm_num
  · rw [hadj]
    norm_num
